import Mathlib

/-!
Verification development for SimpleDB, a single-file JSON-backed key-value
store written in JavaScript. The source ships two variants of the class:
a lockfile-based variant (src/SimpleDB.js lines 1-193) and a queue-based
variant (lines 195 onward). Their Store Engine logic (create / read /
update / delete / batchWrite / readPage / _flushDataIfNeeded / _isValidJson /
_watchFileChanges) is identical; they differ in `_readFromFile` (the
queue-based variant catches JSON parse failures and degrades to an empty
Map, the lockfile-based variant lets the parse error propagate) and in how
`_writeToFile` is serialized, which is immaterial to the properties below.

The embedding models JavaScript values, `Map` insertion-order semantics,
`Array.prototype.slice`, truthiness (for the `data.get(key) || null` read
path), and the store's mutation / delayed-flush state machine.
-/

namespace SimpleDB

/-- A JavaScript runtime value, as far as SimpleDB can observe it: JSON
scalars, arrays and objects, plus `undefined` and function values (the two
kinds of value `JSON.stringify` maps to `undefined`, making
`_isValidJson` return `false`). Numbers are modelled as integers. -/
inductive JsValue where
  | vUndefined : JsValue
  | vNull : JsValue
  | vBool (b : Bool) : JsValue
  | vNum (n : Int) : JsValue
  | vStr (s : String) : JsValue
  | vArr (elems : List JsValue) : JsValue
  | vObj (fields : List (String × JsValue)) : JsValue
  | vFunc (id : Nat) : JsValue

mutual

/-- Decidable structural equality on `JsValue` (hand-written because the
nested lists defeat automatic derivation). -/
def JsValue.decEq : (a b : JsValue) → Decidable (a = b)
  | .vUndefined, .vUndefined => isTrue rfl
  | .vNull, .vNull => isTrue rfl
  | .vBool a, .vBool b =>
      if h : a = b then isTrue (by rw [h]) else
        isFalse (fun hh => h (JsValue.vBool.inj hh))
  | .vNum a, .vNum b =>
      if h : a = b then isTrue (by rw [h]) else
        isFalse (fun hh => h (JsValue.vNum.inj hh))
  | .vStr a, .vStr b =>
      if h : a = b then isTrue (by rw [h]) else
        isFalse (fun hh => h (JsValue.vStr.inj hh))
  | .vFunc a, .vFunc b =>
      if h : a = b then isTrue (by rw [h]) else
        isFalse (fun hh => h (JsValue.vFunc.inj hh))
  | .vArr a, .vArr b =>
      match JsValue.decEqList a b with
      | isTrue h => isTrue (by rw [h])
      | isFalse h => isFalse (fun hh => h (JsValue.vArr.inj hh))
  | .vObj a, .vObj b =>
      match JsValue.decEqFields a b with
      | isTrue h => isTrue (by rw [h])
      | isFalse h => isFalse (fun hh => h (JsValue.vObj.inj hh))
  | .vUndefined, .vNull => isFalse (fun h => JsValue.noConfusion h)
  | .vUndefined, .vBool _ => isFalse (fun h => JsValue.noConfusion h)
  | .vUndefined, .vNum _ => isFalse (fun h => JsValue.noConfusion h)
  | .vUndefined, .vStr _ => isFalse (fun h => JsValue.noConfusion h)
  | .vUndefined, .vArr _ => isFalse (fun h => JsValue.noConfusion h)
  | .vUndefined, .vObj _ => isFalse (fun h => JsValue.noConfusion h)
  | .vUndefined, .vFunc _ => isFalse (fun h => JsValue.noConfusion h)
  | .vNull, .vUndefined => isFalse (fun h => JsValue.noConfusion h)
  | .vNull, .vBool _ => isFalse (fun h => JsValue.noConfusion h)
  | .vNull, .vNum _ => isFalse (fun h => JsValue.noConfusion h)
  | .vNull, .vStr _ => isFalse (fun h => JsValue.noConfusion h)
  | .vNull, .vArr _ => isFalse (fun h => JsValue.noConfusion h)
  | .vNull, .vObj _ => isFalse (fun h => JsValue.noConfusion h)
  | .vNull, .vFunc _ => isFalse (fun h => JsValue.noConfusion h)
  | .vBool _, .vUndefined => isFalse (fun h => JsValue.noConfusion h)
  | .vBool _, .vNull => isFalse (fun h => JsValue.noConfusion h)
  | .vBool _, .vNum _ => isFalse (fun h => JsValue.noConfusion h)
  | .vBool _, .vStr _ => isFalse (fun h => JsValue.noConfusion h)
  | .vBool _, .vArr _ => isFalse (fun h => JsValue.noConfusion h)
  | .vBool _, .vObj _ => isFalse (fun h => JsValue.noConfusion h)
  | .vBool _, .vFunc _ => isFalse (fun h => JsValue.noConfusion h)
  | .vNum _, .vUndefined => isFalse (fun h => JsValue.noConfusion h)
  | .vNum _, .vNull => isFalse (fun h => JsValue.noConfusion h)
  | .vNum _, .vBool _ => isFalse (fun h => JsValue.noConfusion h)
  | .vNum _, .vStr _ => isFalse (fun h => JsValue.noConfusion h)
  | .vNum _, .vArr _ => isFalse (fun h => JsValue.noConfusion h)
  | .vNum _, .vObj _ => isFalse (fun h => JsValue.noConfusion h)
  | .vNum _, .vFunc _ => isFalse (fun h => JsValue.noConfusion h)
  | .vStr _, .vUndefined => isFalse (fun h => JsValue.noConfusion h)
  | .vStr _, .vNull => isFalse (fun h => JsValue.noConfusion h)
  | .vStr _, .vBool _ => isFalse (fun h => JsValue.noConfusion h)
  | .vStr _, .vNum _ => isFalse (fun h => JsValue.noConfusion h)
  | .vStr _, .vArr _ => isFalse (fun h => JsValue.noConfusion h)
  | .vStr _, .vObj _ => isFalse (fun h => JsValue.noConfusion h)
  | .vStr _, .vFunc _ => isFalse (fun h => JsValue.noConfusion h)
  | .vArr _, .vUndefined => isFalse (fun h => JsValue.noConfusion h)
  | .vArr _, .vNull => isFalse (fun h => JsValue.noConfusion h)
  | .vArr _, .vBool _ => isFalse (fun h => JsValue.noConfusion h)
  | .vArr _, .vNum _ => isFalse (fun h => JsValue.noConfusion h)
  | .vArr _, .vStr _ => isFalse (fun h => JsValue.noConfusion h)
  | .vArr _, .vObj _ => isFalse (fun h => JsValue.noConfusion h)
  | .vArr _, .vFunc _ => isFalse (fun h => JsValue.noConfusion h)
  | .vObj _, .vUndefined => isFalse (fun h => JsValue.noConfusion h)
  | .vObj _, .vNull => isFalse (fun h => JsValue.noConfusion h)
  | .vObj _, .vBool _ => isFalse (fun h => JsValue.noConfusion h)
  | .vObj _, .vNum _ => isFalse (fun h => JsValue.noConfusion h)
  | .vObj _, .vStr _ => isFalse (fun h => JsValue.noConfusion h)
  | .vObj _, .vArr _ => isFalse (fun h => JsValue.noConfusion h)
  | .vObj _, .vFunc _ => isFalse (fun h => JsValue.noConfusion h)
  | .vFunc _, .vUndefined => isFalse (fun h => JsValue.noConfusion h)
  | .vFunc _, .vNull => isFalse (fun h => JsValue.noConfusion h)
  | .vFunc _, .vBool _ => isFalse (fun h => JsValue.noConfusion h)
  | .vFunc _, .vNum _ => isFalse (fun h => JsValue.noConfusion h)
  | .vFunc _, .vStr _ => isFalse (fun h => JsValue.noConfusion h)
  | .vFunc _, .vArr _ => isFalse (fun h => JsValue.noConfusion h)
  | .vFunc _, .vObj _ => isFalse (fun h => JsValue.noConfusion h)

/-- Decidable equality for lists of `JsValue`s. -/
def JsValue.decEqList : (a b : List JsValue) → Decidable (a = b)
  | [], [] => isTrue rfl
  | [], _ :: _ => isFalse (fun h => List.noConfusion h)
  | _ :: _, [] => isFalse (fun h => List.noConfusion h)
  | x :: xs, y :: ys =>
      match JsValue.decEq x y, JsValue.decEqList xs ys with
      | isTrue h1, isTrue h2 => isTrue (by rw [h1, h2])
      | isFalse h1, _ => isFalse (fun h => h1 (List.cons.inj h).1)
      | _, isFalse h2 => isFalse (fun h => h2 (List.cons.inj h).2)

/-- Decidable equality for object field lists. -/
def JsValue.decEqFields : (a b : List (String × JsValue)) → Decidable (a = b)
  | [], [] => isTrue rfl
  | [], _ :: _ => isFalse (fun h => List.noConfusion h)
  | _ :: _, [] => isFalse (fun h => List.noConfusion h)
  | (k1, v1) :: xs, (k2, v2) :: ys =>
      match String.decEq k1 k2, JsValue.decEq v1 v2, JsValue.decEqFields xs ys with
      | isTrue hk, isTrue hv, isTrue ht => isTrue (by rw [hk, hv, ht])
      | isFalse hk, _, _ =>
          isFalse (fun h => hk (congrArg Prod.fst (List.cons.inj h).1))
      | _, isFalse hv, _ =>
          isFalse (fun h => hv (congrArg Prod.snd (List.cons.inj h).1))
      | _, _, isFalse ht => isFalse (fun h => ht (List.cons.inj h).2)

end

instance : DecidableEq JsValue := JsValue.decEq

/-- `typeof v === "string"` . -/
def JsValue.isString : JsValue → Bool
  | .vStr _ => true
  | _ => false

/-- JavaScript truthiness of a value, used by the `x || null` idiom in
`read` and `batchRead`. -/
def JsValue.truthy : JsValue → Bool
  | .vUndefined => false
  | .vNull => false
  | .vBool b => b
  | .vNum n => decide (n ≠ 0)
  | .vStr s => decide (s ≠ "")
  | .vArr _ => true
  | .vObj _ => true
  | .vFunc _ => true

/-- `_isValidJson(value)` runs `JSON.parse(JSON.stringify(value))` and
reports whether it throws. `JSON.stringify` returns the (unparsable)
`undefined` exactly on `undefined` and on function values at the top
level; inductive values cannot be cyclic, so this is the only failure
mode in the model. -/
def isValidJson : JsValue → Bool
  | .vUndefined => false
  | .vFunc _ => false
  | _ => true

/-- The in-memory Dataset: a JavaScript `Map` as an insertion-ordered
association list. Keys are arbitrary `JsValue`s because `batchWrite`
performs no key validation. -/
abbrev JsMap := List (JsValue × JsValue)

/-- `map.has(key)` . -/
def mapHas (m : JsMap) (k : JsValue) : Bool :=
  m.any (fun p => decide (p.1 = k))

/-- `map.get(key)` (`none` plays the role of `undefined`). -/
def mapGet (m : JsMap) (k : JsValue) : Option JsValue :=
  (m.find? (fun p => decide (p.1 = k))).map Prod.snd

/-- `map.set(key, value)`: update in place when the key exists (keeping
its insertion position), append otherwise. -/
def mapSet (m : JsMap) (k v : JsValue) : JsMap :=
  if mapHas m k then m.map (fun p => if p.1 = k then (k, v) else p)
  else m ++ [(k, v)]

/-- `map.delete(key)` . -/
def mapDelete (m : JsMap) (k : JsValue) : JsMap :=
  m.filter (fun p => decide (p.1 ≠ k))

/-- `[...map.keys()]` in insertion order. -/
def mapKeys (m : JsMap) : List JsValue := m.map Prod.fst

/-- The `x || null` coercion that `read` and `batchRead` apply to the
result of `map.get`: `undefined` (absent key) and every falsy stored
value collapse to `null`. -/
def orNull : Option JsValue → JsValue
  | none => .vNull
  | some v => if v.truthy then v else .vNull

/-- `read(key)` on a dataset view: validates the key, then returns
`data.get(key) || null`. -/
def readData (data : JsMap) (k : JsValue) : Except String JsValue :=
  if ¬ k.isString then .error "Key must be a string."
  else .ok (orNull (mapGet data k))

/-- `Array.prototype.slice(s, e)`: a negative index counts from the end
of the array, indices are clamped to `[0, length]`, and the elements at
positions `[start, end)` after this normalisation are returned. -/
def jsSliceIdx (len : Nat) (i : Int) : Nat :=
  if i < 0 then ((len : Int) + i).toNat else min i.toNat len

def jsSlice (xs : List α) (s e : Int) : List α :=
  (xs.take (jsSliceIdx xs.length e)).drop (jsSliceIdx xs.length s)

/-- Constructor options that matter to the engine: `useCache` (default
`true`) and `delayedWrite` in milliseconds (default `0`). `cacheSize` is
accepted by the constructor but never consulted, so it is not part of the
model. -/
structure Config where
  useCache : Bool
  delayedWrite : Nat
deriving DecidableEq

/-- One store instance between suspension points: the cached Dataset
(`this.dataCache`), the decoded backing-file content, the
`this.writeScheduled` marker, the Map reference captured by a pending
`setTimeout` callback, the number of outstanding timers, and a count of
completed file writes. -/
structure DBState where
  cache : JsMap
  file : JsMap
  writeScheduled : Bool
  snapshot : JsMap
  timers : Nat
  writes : Nat
deriving DecidableEq

/-- The state right after `_initialize` loaded (or created) the backing
file: cache and file agree, nothing scheduled, nothing written yet. -/
def initState (initial : JsMap) : DBState :=
  { cache := initial, file := initial, writeScheduled := false,
    snapshot := [], timers := 0, writes := 0 }

/-- `_flushDataIfNeeded(data)`: skip entirely when `data.size == 0`;
with a positive delay, schedule a one-shot timer (capturing `data`)
unless one is already pending; with zero delay, write synchronously. -/
def flushDataIfNeeded (cfg : Config) (s : DBState) (data : JsMap) : DBState :=
  if 0 < data.length then
    if 0 < cfg.delayedWrite then
      if ¬ s.writeScheduled then
        { s with writeScheduled := true, timers := s.timers + 1,
                 snapshot := data }
      else s
    else { s with file := data, writes := s.writes + 1 }
  else s

/-- `this.useCache ? this.dataCache : await this._readFromFile()`. -/
def currentData (cfg : Config) (s : DBState) : JsMap :=
  if cfg.useCache then s.cache else s.file

/-- The tail common to every mutating operation: store the mutated view
back into `this.dataCache` when caching, then `_flushDataIfNeeded`. -/
def commitMutation (cfg : Config) (s : DBState) (data : JsMap) : DBState :=
  flushDataIfNeeded cfg
    { s with cache := if cfg.useCache then data else s.cache } data

/-- `create(key, value, {overwrite})`. -/
def create (cfg : Config) (s : DBState) (k v : JsValue) (overwrite : Bool) :
    Except String DBState :=
  if ¬ k.isString then .error "Key must be a string."
  else if ¬ isValidJson v then .error "Value must be a valid JSON object."
  else if !overwrite && mapHas (currentData cfg s) k then
    .error "Key already exists."
  else .ok (commitMutation cfg s (mapSet (currentData cfg s) k v))

/-- `update(key, value)` delegates to `create` with `overwrite: true`. -/
def update (cfg : Config) (s : DBState) (k v : JsValue) :
    Except String DBState :=
  create cfg s k v true

/-- `delete(key)`. -/
def delete (cfg : Config) (s : DBState) (k : JsValue) :
    Except String DBState :=
  if ¬ k.isString then .error "Key must be a string."
  else .ok (commitMutation cfg s (mapDelete (currentData cfg s) k))

/-- One element of `batchWrite`'s `operations` argument; `value` is
`undefined` when the caller omits it. -/
structure BatchOp where
  key : JsValue
  value : JsValue
  action : String
deriving DecidableEq

/-- The body of `batchWrite`'s `forEach`: create and update both
overwrite unconditionally, delete removes, and any other action string
falls through every branch and changes nothing. -/
def applyBatchOp (data : JsMap) (op : BatchOp) : JsMap :=
  if op.action = "create" ∨ op.action = "update" then
    mapSet data op.key op.value
  else if op.action = "delete" then mapDelete data op.key
  else data

/-- The in-order application of a batch to one dataset snapshot. -/
def batchApply (data : JsMap) (ops : List BatchOp) : JsMap :=
  ops.foldl applyBatchOp data

/-- `batchWrite(operations)`: no validation, one commit at the end. -/
def batchWrite (cfg : Config) (s : DBState) (ops : List BatchOp) : DBState :=
  commitMutation cfg s (batchApply (currentData cfg s) ops)

/-- The pending `setTimeout` callback firing: it writes the Map captured
at schedule time. With caching enabled that Map is `this.dataCache`
itself (mutations mutate it in place), so the write sees the fire-time
contents; with caching disabled it is the private Map built by the
scheduling mutation, frozen at schedule time. Afterwards the callback
clears `this.writeScheduled`. -/
def timerFire (cfg : Config) (s : DBState) : DBState :=
  if 0 < s.timers then
    { s with file := if cfg.useCache then s.cache else s.snapshot,
             writes := s.writes + 1, writeScheduled := false,
             timers := s.timers - 1 }
  else s

/-- `read(key)` on the store. -/
def readStore (cfg : Config) (s : DBState) (k : JsValue) :
    Except String JsValue :=
  readData (currentData cfg s) k

/-- An externally observable event of one store instance. A failed
`create`/`delete` raises to the caller and leaves the state unchanged,
which is what the `.getD s` below encodes. -/
inductive Event where
  | evCreate (k v : JsValue) (overwrite : Bool)
  | evDelete (k : JsValue)
  | evBatch (ops : List BatchOp)
  | evFire
deriving DecidableEq

/-- Whether an event is a mutating client call (everything except the
delayed-flush timer firing). -/
def Event.isMutation : Event → Bool
  | .evFire => false
  | _ => true

/-- Small-step semantics of one store instance. -/
def step (cfg : Config) (s : DBState) : Event → DBState
  | .evCreate k v ow =>
      match create cfg s k v ow with
      | .ok s' => s'
      | .error _ => s
  | .evDelete k =>
      match delete cfg s k with
      | .ok s' => s'
      | .error _ => s
  | .evBatch ops => batchWrite cfg s ops
  | .evFire => timerFire cfg s

/-- A whole execution. -/
def run (cfg : Config) (s : DBState) (evs : List Event) : DBState :=
  evs.foldl (step cfg) s

/-- A notification raised by the Change Watcher (`fileChanged` /
`error` events of the EventEmitter). -/
inductive WatchEvent where
  | fileChanged (d : JsMap)
  | errorEvent (msg : String)
deriving DecidableEq

/-- The body of the `fs.watchFile` callback once a modification-time
change was observed: re-read the file, replace `this.dataCache` and
emit `fileChanged`; on a read failure emit `error` and leave the cache
alone. Takes the outcome of the `_readFromFile` call as input. -/
def watchOnChange (cache : JsMap) (readResult : Except String JsMap) :
    JsMap × WatchEvent :=
  match readResult with
  | .ok d => (d, .fileChanged d)
  | .error e => (cache, .errorEvent e)

/-- `_readFromFile` of the lockfile-based variant (src/SimpleDB.js lines
147-155): decode the raw file content and let any parse error
propagate (its `try`/`finally` only releases the lock). Parameterized
over the Codec, which the spec treats as an external collaborator. -/
def readFromFileLockfile (decode : String → Except String JsMap)
    (raw : String) : Except String JsMap :=
  decode raw

/-- `_readFromFile` of the queue-based variant (src/SimpleDB.js lines
342-349): a decode failure is caught and degrades to an empty Map. -/
def readFromFileQueue (decode : String → Except String JsMap)
    (raw : String) : JsMap :=
  match decode raw with
  | .ok d => d
  | .error _ => []

/-- Double quote, written via its code point to keep the file free of
delimiter characters inside character literals. -/
def chQuote : Char := Char.ofNat 34

/-- Comma. -/
def chComma : Char := Char.ofNat 44

/-- Colon. -/
def chColon : Char := Char.ofNat 58

/-- Opening curly brace. -/
def chLBrace : Char := Char.ofNat 123

/-- Closing curly brace. -/
def chRBrace : Char := Char.ofNat 125

/-- JSON insignificant whitespace. -/
def isJsonWs (c : Char) : Bool :=
  c = ' ' ∨ c = '\n' ∨ c = '\t' ∨ c = '\r'

/-- Skip insignificant whitespace. -/
def skipWs (cs : List Char) : List Char := cs.dropWhile isJsonWs

/-- Read a string body up to the closing quote (escape-free strings). -/
def parseStrBody (cs : List Char) : Option (String × List Char) :=
  match cs.dropWhile (fun c => c ≠ chQuote) with
  | c :: rest =>
      if c = chQuote then
        some (String.mk (cs.takeWhile (fun c => c ≠ chQuote)), rest)
      else none
  | [] => none

/-- Decimal digits to a number. -/
def digitsToNat (ds : List Char) : Nat :=
  ds.foldl (fun acc c => acc * 10 + (c.toNat - 48)) 0

/-- Read a nonempty run of digits. -/
def parseNatLit (cs : List Char) : Option (Nat × List Char) :=
  if (cs.takeWhile Char.isDigit).isEmpty then none
  else some (digitsToNat (cs.takeWhile Char.isDigit),
    cs.dropWhile Char.isDigit)

/-- Read an optionally signed integer literal. -/
def parseIntLit (cs : List Char) : Option (Int × List Char) :=
  match cs with
  | c :: rest =>
      if c = '-' then (parseNatLit rest).map (fun p => (-(p.1 : Int), p.2))
      else (parseNatLit cs).map (fun p => ((p.1 : Int), p.2))
  | [] => none

/-- Read a scalar JSON value: string, boolean, null or integer. -/
def parseScalar (cs : List Char) : Option (JsValue × List Char) :=
  match cs with
  | [] => none
  | c :: rest =>
      if c = chQuote then
        (parseStrBody rest).map (fun p => (JsValue.vStr p.1, p.2))
      else if cs.take 4 = ['t', 'r', 'u', 'e'] then
        some (JsValue.vBool true, cs.drop 4)
      else if cs.take 5 = ['f', 'a', 'l', 's', 'e'] then
        some (JsValue.vBool false, cs.drop 5)
      else if cs.take 4 = ['n', 'u', 'l', 'l'] then
        some (JsValue.vNull, cs.drop 4)
      else (parseIntLit cs).map (fun p => (JsValue.vNum p.1, p.2))

/-- Read a comma-separated sequence of `"key": scalar` pairs; the fuel
argument bounds the recursion by the input length. -/
def parsePairs : Nat → List Char → Option (JsMap × List Char)
  | 0, _ => none
  | fuel + 1, cs =>
      match skipWs cs with
      | [] => none
      | c :: rest =>
          if c = chQuote then
            match parseStrBody rest with
            | none => none
            | some (k, r1) =>
                match skipWs r1 with
                | c2 :: r2 =>
                    if c2 = chColon then
                      match parseScalar (skipWs r2) with
                      | none => none
                      | some (v, r3) =>
                          match skipWs r3 with
                          | c3 :: r4 =>
                              if c3 = chComma then
                                match parsePairs fuel r4 with
                                | some (m, r5) =>
                                    some ((JsValue.vStr k, v) :: m, r5)
                                | none => none
                              else some ([(JsValue.vStr k, v)], c3 :: r4)
                          | [] => some ([(JsValue.vStr k, v)], [])
                    else none
                | [] => none
          else none

/-- A concrete Codec for closed examples: a reader for flat JSON objects
(string keys, scalar values). The spec places the JSON Codec out of
scope as an external, assumed-correct collaborator, so the accessor
definitions take the decode function as a parameter; this instance makes
the error-handling claims checkable on explicit byte strings. -/
def decodeFlat (s : String) : Except String JsMap :=
  match skipWs s.data with
  | [] => .error "Unexpected end of JSON input"
  | c :: rest =>
      if c = chLBrace then
        match skipWs rest with
        | c2 :: r2 =>
            if c2 = chRBrace then
              if (skipWs r2).isEmpty then .ok []
              else .error "Unexpected token"
            else
              match parsePairs (rest.length + 1) rest with
              | some (m, r3) =>
                  match skipWs r3 with
                  | c4 :: r4 =>
                      if c4 = chRBrace then
                        if (skipWs r4).isEmpty then .ok m
                        else .error "Unexpected token"
                      else .error "Expected closing brace"
                  | [] => .error "Unexpected end of JSON input"
              | none => .error "Invalid JSON"
        | [] => .error "Unexpected end of JSON input"
      else .error "Unexpected token"

/-- Whether a string is a canonical array-index property key: the
decimal representation, without leading zeros, of an integer in
`[0, 2^32 - 1)`. JavaScript objects enumerate exactly these keys first,
in ascending numeric order, before all other string keys. -/
def isCanonicalIndexStr (s : String) : Bool :=
  decide (s.data ≠ []) && s.data.all Char.isDigit &&
  (decide (s = "0") || decide (s.data.head? ≠ some '0')) &&
  decide (digitsToNat s.data < 4294967295)

/-- The array-index value of a Map key under `Object.fromEntries`'s
ToPropertyKey coercion, when it has one: integer-like strings, and
non-negative in-range numbers (whose decimal string is an index).
Other non-string keys can only enter the Dataset through `batchWrite`'s
missing validation, outside the spec's string-keyed Dataset invariant;
their string coercions are not modelled and they are conservatively
treated as non-index keys. -/
def keyArrayIndex : JsValue → Option Nat
  | .vStr s =>
      if isCanonicalIndexStr s then some (digitsToNat s.data) else none
  | .vNum n => if 0 ≤ n ∧ n < 4294967295 then some n.toNat else none
  | _ => none

/-- Stable insertion of an entry into a list sorted by ascending array
index. -/
def insertByIdx (p : JsValue × JsValue) : JsMap → JsMap
  | [] => [p]
  | q :: rest =>
      if (keyArrayIndex p.1).getD 0 < (keyArrayIndex q.1).getD 0 then
        p :: q :: rest
      else q :: insertByIdx p rest

/-- Stable insertion sort by ascending array index. -/
def sortByIdx : JsMap → JsMap
  | [] => []
  | p :: rest => insertByIdx p (sortByIdx rest)

/-- `Object.fromEntries` own-property enumeration order: entries whose
key is an array index come first, in ascending numeric order, followed
by the remaining entries in insertion order. (The page entries this is
applied to have distinct keys — they are sliced from a Map's key list —
so the duplicate-key case of `fromEntries` never arises.) -/
def objectFromEntries (m : JsMap) : JsMap :=
  sortByIdx (m.filter (fun p => (keyArrayIndex p.1).isSome)) ++
    m.filter (fun p => !(keyArrayIndex p.1).isSome)

/-- `readPage({pageNumber, pageSize})`: slices the key list with
`[...data.keys()].slice((pageNumber-1)*pageSize, pageNumber*pageSize)`,
rebuilds a Map by a `get` per sliced key (`undefined` would be stored
for a key that disappeared; with a fixed dataset this cannot happen),
and returns `Object.fromEntries` of that Map, which re-enumerates
integer-like keys first. -/
def readPage (data : JsMap) (pageNumber pageSize : Int) : JsMap :=
  objectFromEntries
    ((jsSlice (mapKeys data) ((pageNumber - 1) * pageSize)
      (pageNumber * pageSize)).map
      (fun k => (k, (mapGet data k).getD .vUndefined)))

/-- `readPage` on the store. -/
def readPageStore (cfg : Config) (s : DBState)
    (pageNumber pageSize : Int) : JsMap :=
  readPage (currentData cfg s) pageNumber pageSize

/-- The Pending Flush invariant of claim C8: the `writeScheduled` marker
is set exactly while one timer is outstanding. -/
def FlushInv (s : DBState) : Prop :=
  s.timers = if s.writeScheduled then 1 else 0

/-- Fixture: the key "a". -/
def keyA : JsValue := .vStr "a"

/-- Fixture: the key "b". -/
def keyB : JsValue := .vStr "b"

/-- Fixture: the key "c". -/
def keyC : JsValue := .vStr "c"

/-- Fixture: the value 1. -/
def valOne : JsValue := .vNum 1

/-- Fixture: the value 2. -/
def valTwo : JsValue := .vNum 2

/-- Fixture: the value 3. -/
def valThree : JsValue := .vNum 3

/-- Fixture: caching enabled, `delayedWrite: 50`. -/
def cfgCacheDelayed : Config := ⟨true, 50⟩

/-- Fixture: caching disabled, `delayedWrite: 50`. -/
def cfgNoCacheDelayed : Config := ⟨false, 50⟩

/-- Fixture: caching enabled, synchronous writes (the defaults). -/
def cfgCacheImmediate : Config := ⟨true, 0⟩

/-- Fixture: a store with one cached entry and one pending flush. -/
def pendingState : DBState :=
  { cache := [(keyA, valOne)], file := [], writeScheduled := true,
    snapshot := [(keyA, valOne)], timers := 1, writes := 0 }

/-- Fixture: two `create` calls issued within the delay window. -/
def twoCreates : List Event :=
  [.evCreate keyA valOne false, .evCreate keyB valTwo false]

/-- Fixture: two `create` calls within the delay window, then the timer
fires — run with caching disabled. -/
def noCacheTrace : List Event :=
  [.evCreate keyA valOne false, .evCreate keyB valTwo false, .evFire]

/-- Fixture: a `create` that schedules a flush, then deletions that empty
the Dataset, then the pending timer fires. -/
def emptyingTrace : List Event :=
  [.evCreate keyB valTwo false, .evDelete keyA, .evDelete keyB, .evFire]

/-- Fixture: a three-entry Dataset in insertion order a, b, c. -/
def page3Data : JsMap := [(keyA, valOne), (keyB, valTwo), (keyC, valThree)]

/-- Fixture: a Dataset whose second key is the integer-like string "1",
inserted after the plain key "b". -/
def numKeyData : JsMap := [(keyB, valOne), (.vStr "1", valTwo)]

/-- Fixture: the store state after `create("a", 1)` from an empty store
with default options. -/
def createdState : DBState :=
  commitMutation cfgCacheImmediate (initState [])
    (mapSet (currentData cfgCacheImmediate (initState [])) keyA valOne)

/-- Fixture: the store state after `delete("a")` from an empty store
with default options. -/
def deletedState : DBState :=
  commitMutation cfgCacheImmediate (initState [])
    (mapDelete (currentData cfgCacheImmediate (initState [])) keyA)

theorem mapGet_mapSet_self (m : JsMap) (k v : JsValue) :
    mapGet (mapSet m k v) k = some v := by
  unfold mapSet
  split
  · rename_i hhas
    unfold mapHas at hhas
    induction m with
    | nil => simp at hhas
    | cons p rest ih =>
      by_cases hp : p.1 = k
      · simp [mapGet, List.find?, hp]
      · simp only [List.any_cons, Bool.or_eq_true, decide_eq_true_eq] at hhas
        rcases hhas with h | h
        · exact absurd h hp
        · have := ih (by simpa using h)
          simp only [List.map_cons, if_neg hp]
          simpa [mapGet, List.find?_cons, hp] using this
  · induction m with
    | nil => simp [mapGet]
    | cons p rest ih =>
      rename_i hhas
      have hp : ¬ p.1 = k := by
        intro h
        exact hhas (by simp [mapHas, h])
      have hrest : ¬ mapHas rest k = true := by
        intro h
        exact hhas (by simp [mapHas] at h ⊢; right; simpa using h)
      simpa [mapGet, List.find?_cons, hp] using ih hrest

theorem mapGet_mapDelete_self (m : JsMap) (k : JsValue) :
    mapGet (mapDelete m k) k = none := by
  unfold mapGet mapDelete
  induction m with
  | nil => simp
  | cons p rest ih =>
    by_cases hp : p.1 = k
    · simp [List.filter_cons, hp, ih]
    · simp [List.filter_cons, hp, List.find?_cons, ih]

theorem mapDelete_of_not_has (m : JsMap) (k : JsValue)
    (h : mapHas m k = false) : mapDelete m k = m := by
  unfold mapDelete
  induction m with
  | nil => simp
  | cons p rest ih =>
    simp only [mapHas, List.any_cons, Bool.or_eq_false_iff, decide_eq_false_iff_not] at h
    have hr := ih (by simpa [mapHas] using h.2)
    simp only [List.filter_cons]
    rw [if_pos (by simp [h.1]), hr]

theorem mapGet_mapSet_ne (m : JsMap) (k v k' : JsValue) (h : k' ≠ k) :
    mapGet (mapSet m k v) k' = mapGet m k' := by
  unfold mapSet
  split
  · rename_i hhas
    clear hhas
    unfold mapGet
    induction m with
    | nil => simp
    | cons p rest ih =>
      simp only [List.map_cons, List.find?_cons]
      by_cases hp : p.1 = k
      · rw [if_pos hp]
        have hk' : (decide (((k, v) : JsValue × JsValue).1 = k')) = false := by
          simp [Ne.symm h]
        have hp' : (decide (p.1 = k')) = false := by simp [hp, Ne.symm h]
        rw [hk', hp']
        exact ih
      · rw [if_neg hp]
        cases hd : decide (p.1 = k') with
        | true => simp
        | false => exact ih
  · unfold mapGet
    rw [List.find?_append]
    have hnone : List.find? (fun p => decide (p.1 = k')) [(k, v)] = none := by
      simp [List.find?, Ne.symm h]
    simp [hnone]

theorem mapGet_eq_some_of_mem (m : JsMap) (k v : JsValue)
    (hnd : (mapKeys m).Nodup) (hmem : (k, v) ∈ m) : mapGet m k = some v := by
  unfold mapGet
  induction m with
  | nil => simp at hmem
  | cons p rest ih =>
    simp only [mapKeys, List.map_cons, List.nodup_cons] at hnd
    rcases List.mem_cons.mp hmem with h | h
    · subst h
      simp [List.find?_cons]
    · have hp : ¬ p.1 = k := by
        intro hh
        exact hnd.1 (by rw [hh]; exact List.mem_map_of_mem Prod.fst h)
      simp only [List.find?_cons]
      cases hd : decide (p.1 = k) with
      | true => exact absurd (of_decide_eq_true hd) hp
      | false => exact ih hnd.2 h

theorem mapSet_ne_nil (m : JsMap) (k v : JsValue) :
    mapSet m k v ≠ [] := by
  unfold mapSet
  split
  · rename_i hhas
    intro hnil
    cases m with
    | nil => simp [mapHas] at hhas
    | cons p rest => simp at hnil
  · intro hnil
    cases m <;> simp at hnil

theorem jsSlice_map (f : α → β) (xs : List α) (s e : Int) :
    jsSlice (xs.map f) s e = (jsSlice xs s e).map f := by
  simp [jsSlice, List.map_drop, List.map_take]

theorem jsSlice_sublist (xs : List α) (s e : Int) :
    (jsSlice xs s e).Sublist xs := by
  unfold jsSlice
  exact ((xs.take _).drop_sublist _).trans (xs.take_sublist _)

/-- With non-negative indices, `jsSlice` is plain take-then-drop: the
elements at positions `[s, e)`. -/
theorem jsSlice_of_nonneg (xs : List α) (s e : Int) (hs : 0 ≤ s)
    (he : 0 ≤ e) : jsSlice xs s e = (xs.take e.toNat).drop s.toNat := by
  unfold jsSlice jsSliceIdx
  rw [if_neg (by omega), if_neg (by omega)]
  have htake : xs.take (min e.toNat xs.length) = xs.take e.toNat := by
    rcases le_total e.toNat xs.length with h | h
    · rw [min_eq_left h]
    · rw [min_eq_right h, List.take_length, List.take_of_length_le h]
  rw [htake]
  rcases le_total s.toNat xs.length with h | h
  · rw [min_eq_left h]
  · rw [min_eq_right h]
    have h1 : (xs.take e.toNat).length ≤ xs.length := by
      simp
    rw [List.drop_eq_nil_of_le h1, List.drop_eq_nil_of_le (h1.trans h)]

theorem flushDataIfNeeded_cache_eq (cfg : Config) (s : DBState)
    (data : JsMap) : (flushDataIfNeeded cfg s data).cache = s.cache := by
  unfold flushDataIfNeeded
  split_ifs <;> rfl

theorem flushDataIfNeeded_empty (cfg : Config) (s : DBState) :
    flushDataIfNeeded cfg s [] = s := rfl

theorem flushDataIfNeeded_delayed_frame (cfg : Config) (s : DBState)
    (data : JsMap) (hd : 0 < cfg.delayedWrite) :
    (flushDataIfNeeded cfg s data).file = s.file ∧
    (flushDataIfNeeded cfg s data).writes = s.writes := by
  unfold flushDataIfNeeded
  split_ifs <;> exact ⟨rfl, rfl⟩

theorem flushDataIfNeeded_immediate (cfg : Config) (s : DBState)
    (data : JsMap) (hd : cfg.delayedWrite = 0) (hne : data ≠ []) :
    flushDataIfNeeded cfg s data =
      { s with file := data, writes := s.writes + 1 } := by
  unfold flushDataIfNeeded
  have hlen : 0 < data.length := List.length_pos.mpr hne
  rw [if_pos hlen, if_neg (by omega)]

theorem flushDataIfNeeded_pending_frame (cfg : Config) (s : DBState)
    (data : JsMap) (hws : s.writeScheduled = true) :
    (flushDataIfNeeded cfg s data).timers = s.timers ∧
    (flushDataIfNeeded cfg s data).writeScheduled = true := by
  unfold flushDataIfNeeded
  split_ifs <;> exact ⟨rfl, hws⟩

theorem flushDataIfNeeded_scheduled (cfg : Config) (s : DBState)
    (data : JsMap) (hd : 0 < cfg.delayedWrite) (hne : data ≠ []) :
    (flushDataIfNeeded cfg s data).writeScheduled = true := by
  unfold flushDataIfNeeded
  have hlen : 0 < data.length := List.length_pos.mpr hne
  rw [if_pos hlen, if_pos hd]
  split_ifs with h
  · exact h
  · rfl

theorem flushInv_flush (cfg : Config) (s : DBState) (data : JsMap)
    (h : FlushInv s) : FlushInv (flushDataIfNeeded cfg s data) := by
  unfold FlushInv at h
  unfold flushDataIfNeeded
  by_cases h1 : 0 < data.length
  · rw [if_pos h1]
    by_cases h2 : 0 < cfg.delayedWrite
    · rw [if_pos h2]
      by_cases h3 : s.writeScheduled = true
      · rw [if_neg (not_not_intro h3)]
        exact h
      · rw [if_pos h3]
        have hws : s.writeScheduled = false := by
          cases hws : s.writeScheduled
          · rfl
          · exact absurd hws h3
        rw [hws] at h
        simp only [Bool.false_eq_true, if_false] at h
        unfold FlushInv
        simp [h]
    · rw [if_neg h2]
      unfold FlushInv
      simpa using h
  · rw [if_neg h1]
    exact h

theorem flushInv_timerFire (cfg : Config) (s : DBState)
    (h : FlushInv s) : FlushInv (timerFire cfg s) := by
  unfold FlushInv at h
  unfold timerFire
  by_cases ht : 0 < s.timers
  · rw [if_pos ht]
    have hz : s.timers - 1 = 0 := by
      cases hws : s.writeScheduled <;> rw [hws] at h <;> simp at h <;> omega
    unfold FlushInv
    simpa using hz
  · rw [if_neg ht]
    exact h

theorem create_ok_inv (cfg : Config) (s s' : DBState) (k v : JsValue)
    (ow : Bool) (hc : create cfg s k v ow = .ok s') :
    s' = commitMutation cfg s (mapSet (currentData cfg s) k v) ∧
    k.isString = true ∧ isValidJson v = true := by
  unfold create at hc
  split_ifs at hc with h1 h2 h3
  · exact ⟨(Except.ok.inj hc).symm, by simpa using h1, by simpa using h2⟩

theorem delete_ok_inv (cfg : Config) (s s' : DBState) (k : JsValue)
    (hc : delete cfg s k = .ok s') :
    s' = commitMutation cfg s (mapDelete (currentData cfg s) k) ∧
    k.isString = true := by
  unfold delete at hc
  split_ifs at hc with h1
  · exact ⟨(Except.ok.inj hc).symm, by simpa using h1⟩

theorem commitMutation_cache (cfg : Config) (s : DBState) (data : JsMap)
    (hc : cfg.useCache = true) : (commitMutation cfg s data).cache = data := by
  unfold commitMutation
  rw [flushDataIfNeeded_cache_eq]
  simp [hc]

theorem flushInv_step (cfg : Config) (s : DBState) (e : Event)
    (h : FlushInv s) : FlushInv (step cfg s e) := by
  cases e with
  | evCreate k v ow =>
      simp only [step]
      cases hc : create cfg s k v ow with
      | ok s' =>
          obtain ⟨rfl, -, -⟩ := create_ok_inv cfg s s' k v ow hc
          exact flushInv_flush _ _ _ h
      | error msg => exact h
  | evDelete k =>
      simp only [step]
      cases hc : delete cfg s k with
      | ok s' =>
          obtain ⟨rfl, -⟩ := delete_ok_inv cfg s s' k hc
          exact flushInv_flush _ _ _ h
      | error msg => exact h
  | evBatch ops => exact flushInv_flush _ _ _ h
  | evFire => exact flushInv_timerFire _ _ h

theorem flushInv_run (cfg : Config) (s : DBState) (evs : List Event)
    (h : FlushInv s) : FlushInv (run cfg s evs) := by
  induction evs generalizing s with
  | nil => exact h
  | cons e rest ih =>
      simp only [run, List.foldl]
      exact ih (step cfg s e) (flushInv_step cfg s e h)

theorem step_mutation_pending (cfg : Config) (s : DBState) (e : Event)
    (hm : e.isMutation = true) (hws : s.writeScheduled = true) :
    (step cfg s e).timers = s.timers ∧
    (step cfg s e).writeScheduled = true := by
  cases e with
  | evCreate k v ow =>
      simp only [step]
      cases hc : create cfg s k v ow with
      | ok s' =>
          obtain ⟨rfl, -, -⟩ := create_ok_inv cfg s s' k v ow hc
          exact flushDataIfNeeded_pending_frame _ _ _ hws
      | error msg => exact ⟨rfl, hws⟩
  | evDelete k =>
      simp only [step]
      cases hc : delete cfg s k with
      | ok s' =>
          obtain ⟨rfl, -⟩ := delete_ok_inv cfg s s' k hc
          exact flushDataIfNeeded_pending_frame _ _ _ hws
      | error msg => exact ⟨rfl, hws⟩
  | evBatch ops => exact flushDataIfNeeded_pending_frame _ _ _ hws
  | evFire => simp [Event.isMutation] at hm

theorem step_mutation_delayed_frame (cfg : Config) (s : DBState) (e : Event)
    (hd : 0 < cfg.delayedWrite) (hm : e.isMutation = true) :
    (step cfg s e).file = s.file ∧ (step cfg s e).writes = s.writes := by
  cases e with
  | evCreate k v ow =>
      simp only [step]
      cases hc : create cfg s k v ow with
      | ok s' =>
          obtain ⟨rfl, -, -⟩ := create_ok_inv cfg s s' k v ow hc
          exact flushDataIfNeeded_delayed_frame _ _ _ hd
      | error msg => exact ⟨rfl, rfl⟩
  | evDelete k =>
      simp only [step]
      cases hc : delete cfg s k with
      | ok s' =>
          obtain ⟨rfl, -⟩ := delete_ok_inv cfg s s' k hc
          exact flushDataIfNeeded_delayed_frame _ _ _ hd
      | error msg => exact ⟨rfl, rfl⟩
  | evBatch ops => exact flushDataIfNeeded_delayed_frame _ _ _ hd
  | evFire => simp [Event.isMutation] at hm

theorem run_mutations_delayed_frame (cfg : Config) (s : DBState)
    (evs : List Event) (hd : 0 < cfg.delayedWrite)
    (hm : ∀ e ∈ evs, e.isMutation = true) :
    (run cfg s evs).file = s.file ∧ (run cfg s evs).writes = s.writes := by
  induction evs generalizing s with
  | nil => exact ⟨rfl, rfl⟩
  | cons e rest ih =>
      simp only [run, List.foldl]
      have h1 := step_mutation_delayed_frame cfg s e hd (hm e (by simp))
      have h2 := ih (step cfg s e) (fun e' he' => hm e' (by simp [he']))
      simp only [run] at h2
      exact ⟨h2.1.trans h1.1, h2.2.trans h1.2⟩

/-- C8: at most one pending flush exists per store instance: the
`writeScheduled` marker is set exactly while a timer is outstanding
(`FlushInv`); the invariant is preserved by every event and holds in
every state reachable from initialization; and a mutating operation
arriving while a flush is pending starts no second timer and leaves the
marker set. -/
theorem C8_pending_flush_unique (cfg : Config) (s : DBState) (e : Event)
    (init : JsMap) (evs : List Event) (hinv : FlushInv s) :
    FlushInv (step cfg s e) ∧
    FlushInv (run cfg (initState init) evs) ∧
    (e.isMutation = true → s.writeScheduled = true →
      (step cfg s e).timers = s.timers ∧
      (step cfg s e).writeScheduled = true) := by
  refine ⟨flushInv_step cfg s e hinv, ?_, ?_⟩
  · exact flushInv_run cfg _ evs (by simp [FlushInv, initState])
  · intro hm hws
    exact step_mutation_pending cfg s e hm hws

/-- Closed instance of C8: from a state with a pending flush, a second
`create` keeps exactly one timer outstanding and the marker set, and the
invariant holds along a concrete initialized run. -/
theorem C8_pending_flush_unique_witness :
    FlushInv (step cfgCacheDelayed pendingState
      (.evCreate keyB valTwo false)) ∧
    FlushInv (run cfgCacheDelayed (initState [])
      [.evCreate keyB valTwo false, .evFire]) ∧
    (step cfgCacheDelayed pendingState
      (.evCreate keyB valTwo false)).timers = pendingState.timers ∧
    (step cfgCacheDelayed pendingState
      (.evCreate keyB valTwo false)).writeScheduled = true := by
  have h := C8_pending_flush_unique cfgCacheDelayed pendingState
    (.evCreate keyB valTwo false) []
    [.evCreate keyB valTwo false, .evFire] rfl
  exact ⟨h.1, h.2.1, (h.2.2 (by decide) (by decide)).1,
    (h.2.2 (by decide) (by decide)).2⟩

/-- C2 (amended): with caching enabled and delayedWrite D > 0, mutations
issued while a flush is pending perform no file write themselves, and
when the pending timer fires it performs exactly one write whose content
is the in-memory Dataset as of fire time — hence it reflects every
mutation issued in the window. (With caching disabled the timer instead
writes the snapshot captured at schedule time; see the
counterexample.) -/
theorem C2_delayed_flush_coalesces (d : Nat) (s : DBState)
    (evs : List Event) (hd : 0 < d)
    (hm : ∀ e ∈ evs, e.isMutation = true) :
    (run ⟨true, d⟩ s evs).writes = s.writes ∧
    (run ⟨true, d⟩ s evs).file = s.file ∧
    (0 < (run ⟨true, d⟩ s evs).timers →
      (timerFire ⟨true, d⟩ (run ⟨true, d⟩ s evs)).file =
        (run ⟨true, d⟩ s evs).cache ∧
      (timerFire ⟨true, d⟩ (run ⟨true, d⟩ s evs)).writes =
        s.writes + 1) := by
  obtain ⟨hfile, hwrites⟩ :=
    run_mutations_delayed_frame ⟨true, d⟩ s evs hd hm
  refine ⟨hwrites, hfile, ?_⟩
  intro ht
  unfold timerFire
  rw [if_pos ht]
  refine ⟨rfl, ?_⟩
  show (run ⟨true, d⟩ s evs).writes + 1 = s.writes + 1
  rw [hwrites]

/-- Closed instance of C2 (amended): two `create` calls within the
50 ms window write nothing themselves; the single write performed when
the timer fires contains both entries. -/
theorem C2_delayed_flush_coalesces_witness :
    (run cfgCacheDelayed (initState []) twoCreates).writes = 0 ∧
    (timerFire cfgCacheDelayed
      (run cfgCacheDelayed (initState []) twoCreates)).writes = 1 ∧
    (timerFire cfgCacheDelayed
      (run cfgCacheDelayed (initState []) twoCreates)).file =
      [(keyA, valOne), (keyB, valTwo)] := by
  have h := C2_delayed_flush_coalesces 50 (initState []) twoCreates
    (by decide) (by decide)
  have hfire := h.2.2 (by decide)
  refine ⟨h.1, hfire.2, hfire.1.trans (by decide)⟩

/-- Counterexample to C2 as stated: with caching disabled and
`delayedWrite = 50`, two successful `create` calls inside the window
produce exactly one write, but that write contains only the first
mutation — the timer persists the Map captured at schedule time, so the
second `create` is missing from the file. -/
theorem C2_counterexample :
    (create cfgNoCacheDelayed
      (step cfgNoCacheDelayed (initState []) (.evCreate keyA valOne false))
      keyB valTwo false).isOk = true ∧
    (run cfgNoCacheDelayed (initState []) noCacheTrace).writes = 1 ∧
    (run cfgNoCacheDelayed (initState []) noCacheTrace).file =
      [(keyA, valOne)] ∧
    mapGet (run cfgNoCacheDelayed (initState []) noCacheTrace).file
      keyB = none := by
  refine ⟨by decide, by decide, by decide, by decide⟩

/-- C3 (amended): the flush decision skips persistence when the mutated
Dataset is empty: a `delete` that empties the store performs no
synchronous write, schedules no timer, and leaves the file and the
pending marker untouched at that step. (A flush already pending at that
moment still fires later and, with caching enabled, persists the emptied
Dataset — see the counterexample.) -/
theorem C3_skip_empty_flush (cfg : Config) (s : DBState) (k : JsValue)
    (hk : k.isString = true)
    (hempty : mapDelete (currentData cfg s) k = []) :
    (step cfg s (.evDelete k)).writes = s.writes ∧
    (step cfg s (.evDelete k)).file = s.file ∧
    (step cfg s (.evDelete k)).timers = s.timers ∧
    (step cfg s (.evDelete k)).writeScheduled = s.writeScheduled := by
  have hdel : delete cfg s k =
      .ok (commitMutation cfg s (mapDelete (currentData cfg s) k)) := by
    unfold delete
    rw [if_neg (by simp [hk])]
  have hstep : step cfg s (.evDelete k) =
      commitMutation cfg s (mapDelete (currentData cfg s) k) := by
    simp only [step, hdel]
  rw [hstep]
  unfold commitMutation
  rw [hempty, flushDataIfNeeded_empty]
  exact ⟨rfl, rfl, rfl, rfl⟩

/-- Closed instance of C3 (amended): with default options, deleting the
only key writes nothing and leaves the file as it was. -/
theorem C3_skip_empty_flush_witness :
    (step cfgCacheImmediate (initState [(keyA, valOne)])
      (.evDelete keyA)).writes = (initState [(keyA, valOne)]).writes ∧
    (step cfgCacheImmediate (initState [(keyA, valOne)])
      (.evDelete keyA)).file = (initState [(keyA, valOne)]).file := by
  have h := C3_skip_empty_flush cfgCacheImmediate
    (initState [(keyA, valOne)]) keyA (by decide) (by decide)
  exact ⟨h.1, h.2.1⟩

/-- Counterexample to C3 as stated: with `delayedWrite = 50` and caching
enabled, a `create` schedules a flush; deletions then empty the Dataset
(so the claim demands that no write occur and the file keep its previous
content), yet the pending timer still fires, performs a write, and
replaces the file's previous content with the empty object. -/
theorem C3_counterexample :
    (run cfgCacheDelayed (initState [(keyA, valOne)])
      (emptyingTrace.take 3)).cache = [] ∧
    (run cfgCacheDelayed (initState [(keyA, valOne)])
      emptyingTrace).writes = 1 ∧
    (run cfgCacheDelayed (initState [(keyA, valOne)])
      emptyingTrace).file = [] ∧
    (initState [(keyA, valOne)]).file = [(keyA, valOne)] := by
  refine ⟨by decide, by decide, by decide, by decide⟩

/-- C1 (amended): with caching enabled, `create(key, value)` followed by
`read(key)` returns the written value provided the value is JS-truthy;
after `update(key, v2)` with truthy `v2`, `read(key)` returns `v2`; after
`delete(key)`, `read(key)` returns the null sentinel. (For a falsy
stored value — 0, "", false, null — the `get(key) || null` read path
returns null instead of the value; see the counterexample.) -/
theorem C1_crud_read_roundtrip (cfg : Config) (s : DBState)
    (k v : JsValue) (ow : Bool) (hc : cfg.useCache = true) :
    (∀ s', create cfg s k v ow = .ok s' → v.truthy = true →
      readStore cfg s' k = .ok v) ∧
    (∀ s', update cfg s k v = .ok s' → v.truthy = true →
      readStore cfg s' k = .ok v) ∧
    (∀ s', delete cfg s k = .ok s' → readStore cfg s' k = .ok .vNull) := by
  have key : ∀ (ow₂ : Bool) (s' : DBState),
      create cfg s k v ow₂ = .ok s' → v.truthy = true →
      readStore cfg s' k = .ok v := by
    intro ow₂ s' hcr htr
    obtain ⟨rfl, hks, -⟩ := create_ok_inv cfg s s' k v ow₂ hcr
    have hcur : currentData cfg
        (commitMutation cfg s (mapSet (currentData cfg s) k v)) =
        mapSet (currentData cfg s) k v := by
      simp [currentData, hc, commitMutation_cache cfg s _ hc]
    unfold readStore
    rw [hcur]
    unfold readData
    rw [if_neg (by simp [hks]), mapGet_mapSet_self]
    simp [orNull, htr]
  refine ⟨key ow, key true, ?_⟩
  intro s' hd
  obtain ⟨rfl, hks⟩ := delete_ok_inv cfg s s' k hd
  have hcur : currentData cfg
      (commitMutation cfg s (mapDelete (currentData cfg s) k)) =
      mapDelete (currentData cfg s) k := by
    simp [currentData, hc, commitMutation_cache cfg s _ hc]
  unfold readStore
  rw [hcur]
  unfold readData
  rw [if_neg (by simp [hks]), mapGet_mapDelete_self]
  rfl

/-- Closed instance of C1 (amended): with default options, reading "a"
after `create("a", 1)` yields 1, and reading "a" after `delete("a")`
yields null. -/
theorem C1_crud_read_roundtrip_witness :
    readStore cfgCacheImmediate createdState keyA = .ok valOne ∧
    readStore cfgCacheImmediate deletedState keyA = .ok .vNull := by
  have h := C1_crud_read_roundtrip cfgCacheImmediate (initState [])
    keyA valOne false rfl
  exact ⟨h.1 createdState rfl (by decide), h.2.2 deletedState rfl⟩

/-- Counterexample to C1 as stated: `create("a", 0)` succeeds (0 is a
valid JSON value), but `read("a")` then returns the null sentinel, not
0, because `read` computes `data.get(key) || null` and 0 is falsy. -/
theorem C1_counterexample :
    (create cfgCacheImmediate (initState []) keyA (.vNum 0) false).isOk =
      true ∧
    readStore cfgCacheImmediate
      (step cfgCacheImmediate (initState [])
        (.evCreate keyA (.vNum 0) false)) keyA = .ok .vNull ∧
    JsValue.vNull ≠ JsValue.vNum 0 := by
  refine ⟨by decide, rfl, by decide⟩

/-- C5: the `create(key, value, overwrite)` contract: a non-string key
fails with the InvalidKey error; a non-JSON-representable value fails
with the InvalidValue error; an existing key without `overwrite` fails
with the KeyExists error; in every other case the key is inserted or
replaced in the Dataset view and a flush is triggered — an immediate
write when `delayedWrite` is 0, a set pending marker when it is
positive. -/
theorem C5_create_contract (cfg : Config) (s : DBState) (k v : JsValue)
    (ow : Bool) :
    (k.isString = false →
      create cfg s k v ow = .error "Key must be a string.") ∧
    (k.isString = true → isValidJson v = false →
      create cfg s k v ow = .error "Value must be a valid JSON object.") ∧
    (k.isString = true → isValidJson v = true → ow = false →
      mapHas (currentData cfg s) k = true →
      create cfg s k v ow = .error "Key already exists.") ∧
    (k.isString = true → isValidJson v = true →
      (ow = true ∨ mapHas (currentData cfg s) k = false) →
      ∃ s', create cfg s k v ow = .ok s' ∧
        (cfg.useCache = true →
          s'.cache = mapSet (currentData cfg s) k v) ∧
        (cfg.delayedWrite = 0 →
          s'.file = mapSet (currentData cfg s) k v ∧
          s'.writes = s.writes + 1) ∧
        (0 < cfg.delayedWrite → s'.writeScheduled = true)) := by
  refine ⟨?_, ?_, ?_, ?_⟩
  · intro hk
    unfold create
    rw [if_pos (by simp [hk])]
  · intro hk hv
    unfold create
    rw [if_neg (by simp [hk]), if_pos (by simp [hv])]
  · intro hk hv how hhas
    unfold create
    rw [if_neg (by simp [hk]), if_neg (by simp [hv]),
      if_pos (by simp [how, hhas])]
  · intro hk hv hcase
    refine ⟨commitMutation cfg s (mapSet (currentData cfg s) k v),
      ?_, ?_, ?_, ?_⟩
    · unfold create
      rw [if_neg (by simp [hk]), if_neg (by simp [hv]),
        if_neg (by rcases hcase with h | h <;> simp [h])]
    · intro hcache
      exact commitMutation_cache cfg s _ hcache
    · intro hd0
      unfold commitMutation
      rw [flushDataIfNeeded_immediate _ _ _ hd0 (mapSet_ne_nil _ _ _)]
      exact ⟨rfl, rfl⟩
    · intro hdp
      unfold commitMutation
      exact flushDataIfNeeded_scheduled _ _ _ hdp (mapSet_ne_nil _ _ _)

/-- Closed instance of C5: each error case at a concrete input, and a
successful create performing exactly one immediate write. -/
theorem C5_create_contract_witness :
    create cfgCacheImmediate (initState []) (.vNum 7) valOne false =
      .error "Key must be a string." ∧
    create cfgCacheImmediate (initState []) keyA .vUndefined false =
      .error "Value must be a valid JSON object." ∧
    create cfgCacheImmediate (initState [(keyA, valOne)]) keyA valTwo
      false = .error "Key already exists." ∧
    ∃ s', create cfgCacheImmediate (initState []) keyA valOne false =
      .ok s' ∧ s'.writes = 1 := by
  have h1 := (C5_create_contract cfgCacheImmediate (initState [])
    (.vNum 7) valOne false).1 (by decide)
  have h2 := (C5_create_contract cfgCacheImmediate (initState [])
    keyA .vUndefined false).2.1 (by decide) (by decide)
  have h3 := (C5_create_contract cfgCacheImmediate
    (initState [(keyA, valOne)]) keyA valTwo false).2.2.1 (by decide)
    (by decide) rfl (by decide)
  obtain ⟨s', hok, -, himm, -⟩ := (C5_create_contract cfgCacheImmediate
    (initState []) keyA valOne false).2.2.2 (by decide) (by decide)
    (Or.inr (by decide))
  exact ⟨h1, h2, h3, s', hok, by simpa using (himm rfl).2⟩

/-- C6: `batchWrite` applies its operations in order to one Dataset
snapshot: a delete of a nonexistent key is a no-op; create and update
both set the key unconditionally (no KeyExists check); the in-order
batch that creates "a" and then deletes "a" (for any key) leaves the key
absent; and the whole batch triggers at most one write — exactly one in
immediate mode when the resulting Dataset is nonempty, no matter how
many operations the batch contains. -/
theorem C6_batchWrite_contract (cfg : Config) (s : DBState) (d : JsMap)
    (k v v2 : JsValue) (ops : List BatchOp) :
    (mapHas d k = false → applyBatchOp d ⟨k, v, "delete"⟩ = d) ∧
    (mapGet (applyBatchOp d ⟨k, v, "create"⟩) k = some v) ∧
    (mapGet (applyBatchOp d ⟨k, v, "update"⟩) k = some v) ∧
    (batchApply d (⟨k, v, "create"⟩ :: ops) =
      batchApply (mapSet d k v) ops) ∧
    (mapGet (batchApply d [⟨k, v, "create"⟩, ⟨k, v2, "delete"⟩]) k =
      none) ∧
    ((batchWrite cfg s ops).writes ≤ s.writes + 1) ∧
    (cfg.delayedWrite = 0 → batchApply (currentData cfg s) ops ≠ [] →
      (batchWrite cfg s ops).writes = s.writes + 1) := by
  have hcreate : applyBatchOp d ⟨k, v, "create"⟩ = mapSet d k v := by
    unfold applyBatchOp
    rw [if_pos (Or.inl rfl)]
  have hdelete : ∀ (d' : JsMap) (w : JsValue),
      applyBatchOp d' ⟨k, w, "delete"⟩ = mapDelete d' k := by
    intro d' w
    unfold applyBatchOp
    rw [if_neg (by intro hor; simp at hor), if_pos rfl]
  refine ⟨?_, ?_, ?_, ?_, ?_, ?_, ?_⟩
  · intro hh
    rw [hdelete d v]
    exact mapDelete_of_not_has d k hh
  · rw [hcreate]
    exact mapGet_mapSet_self d k v
  · rw [show applyBatchOp d ⟨k, v, "update"⟩ = mapSet d k v from by
      unfold applyBatchOp; rw [if_pos (Or.inr rfl)]]
    exact mapGet_mapSet_self d k v
  · unfold batchApply
    simp only [List.foldl]
    rw [hcreate]
  · unfold batchApply
    simp only [List.foldl]
    rw [hcreate, hdelete (mapSet d k v) v2]
    exact mapGet_mapDelete_self _ _
  · unfold batchWrite commitMutation flushDataIfNeeded
    split_ifs <;> simp
  · intro hd hne
    unfold batchWrite commitMutation
    rw [flushDataIfNeeded_immediate _ _ _ hd hne]

/-- Closed instance of C6: the spec's example batch leaves "a" absent, a
batch delete of an absent key changes nothing, a batch create over an
existing key overwrites, and a two-operation batch from a fresh store
performs exactly one write. -/
theorem C6_batchWrite_contract_witness :
    mapGet (batchApply [(keyB, valTwo)]
      [⟨keyA, valOne, "create"⟩, ⟨keyA, .vUndefined, "delete"⟩]) keyA =
      none ∧
    applyBatchOp [(keyB, valTwo)] ⟨keyA, valOne, "delete"⟩ =
      [(keyB, valTwo)] ∧
    mapGet (applyBatchOp [(keyA, valOne)] ⟨keyA, valTwo, "create"⟩)
      keyA = some valTwo ∧
    (batchWrite cfgCacheImmediate (initState [])
      [⟨keyA, valOne, "create"⟩, ⟨keyB, valTwo, "create"⟩]).writes = 1 := by
  have h := C6_batchWrite_contract cfgCacheImmediate (initState [])
    [(keyB, valTwo)] keyA valOne JsValue.vUndefined []
  have h2 := C6_batchWrite_contract cfgCacheImmediate (initState [])
    [(keyA, valOne)] keyA valTwo JsValue.vUndefined []
  have h3 := (C6_batchWrite_contract cfgCacheImmediate (initState [])
    [] keyA valOne JsValue.vUndefined
    [⟨keyA, valOne, "create"⟩, ⟨keyB, valTwo, "create"⟩]).2.2.2.2.2.2
    rfl (by decide)
  exact ⟨h.2.2.2.2.1, h.1 (by decide), h2.2.1, by simpa using h3⟩

theorem insertByIdx_perm (p : JsValue × JsValue) (l : JsMap) :
    (insertByIdx p l).Perm (p :: l) := by
  induction l with
  | nil => exact List.Perm.refl _
  | cons q rest ih =>
      unfold insertByIdx
      split_ifs
      · exact List.Perm.refl _
      · exact (ih.cons q).trans (List.Perm.swap p q rest)

theorem sortByIdx_perm (l : JsMap) : (sortByIdx l).Perm l := by
  induction l with
  | nil => exact List.Perm.refl _
  | cons p rest ih =>
      unfold sortByIdx
      exact (insertByIdx_perm p (sortByIdx rest)).trans (ih.cons p)

/-- `Object.fromEntries` only re-enumerates the entries: the result is a
permutation of the input. -/
theorem objectFromEntries_perm (m : JsMap) :
    (objectFromEntries m).Perm m := by
  unfold objectFromEntries
  exact ((sortByIdx_perm _).append_right _).trans
    (List.filter_append_perm _ m)

/-- When no key is an array index, `Object.fromEntries` preserves
insertion order exactly. -/
theorem objectFromEntries_eq_self (m : JsMap)
    (h : ∀ p ∈ m, keyArrayIndex p.1 = none) :
    objectFromEntries m = m := by
  unfold objectFromEntries
  have h1 : m.filter (fun p => (keyArrayIndex p.1).isSome) = [] := by
    rw [List.filter_eq_nil_iff]
    intro p hp
    simp [h p hp]
  have h2 : m.filter (fun p => !(keyArrayIndex p.1).isSome) = m := by
    rw [List.filter_eq_self]
    intro p hp
    simp [h p hp]
  rw [h1, h2]
  rfl

theorem objectFromEntries_nil : objectFromEntries [] = [] := rfl

/-- C7 (amended): `readPage(pageNumber, pageSize)` is
`Object.fromEntries` of the JS `slice` of the Dataset entries at indices
`[(pageNumber-1)*pageSize, pageNumber*pageSize)`; the page is always a
permutation of exactly those entries (1-based pages); for
`pageNumber ≥ 1` and `pageSize ≥ 0` it is that plain position range, and
Dataset order is preserved whenever none of the selected keys is an
integer-like string (object enumeration hoists integer-like keys into
ascending numeric order — see the counterexample); a page past the end
is empty, and page 0 is empty. (Pages below 0 are not all empty: JS
`slice` treats negative indices as offsets from the end — see the
counterexample.) -/
theorem C7_readPage_contract (data : JsMap) (pn ps : Int)
    (hnd : (mapKeys data).Nodup) :
    (readPage data pn ps =
      objectFromEntries (jsSlice data ((pn - 1) * ps) (pn * ps))) ∧
    ((readPage data pn ps).Perm
      (jsSlice data ((pn - 1) * ps) (pn * ps))) ∧
    (1 ≤ pn → 0 ≤ ps →
      (readPage data pn ps).Perm
        ((data.take (pn * ps).toNat).drop ((pn - 1) * ps).toNat)) ∧
    (1 ≤ pn → 0 ≤ ps →
      (∀ p ∈ (data.take (pn * ps).toNat).drop ((pn - 1) * ps).toNat,
        p.1.isString = true ∧ keyArrayIndex p.1 = none) →
      readPage data pn ps =
        (data.take (pn * ps).toNat).drop ((pn - 1) * ps).toNat) ∧
    (1 ≤ pn → 0 ≤ ps → (data.length : Int) ≤ (pn - 1) * ps →
      readPage data pn ps = []) ∧
    (pn = 0 → readPage data pn ps = []) := by
  have hrebuild : ((jsSlice (mapKeys data) ((pn - 1) * ps)
      (pn * ps)).map
      (fun k => (k, (mapGet data k).getD JsValue.vUndefined))) =
      jsSlice data ((pn - 1) * ps) (pn * ps) := by
    rw [show mapKeys data = data.map Prod.fst from rfl, jsSlice_map,
      List.map_map]
    have hpt : ∀ p ∈ jsSlice data ((pn - 1) * ps) (pn * ps),
        ((fun k => (k, (mapGet data k).getD JsValue.vUndefined)) ∘
          Prod.fst) p = id p := by
      intro p hp
      have hmem : p ∈ data := (jsSlice_sublist data _ _).subset hp
      have hget : mapGet data p.1 = some p.2 :=
        mapGet_eq_some_of_mem data p.1 p.2 hnd (by simpa using hmem)
      simp [hget]
    rw [List.map_congr_left hpt, List.map_id]
  have hmain : readPage data pn ps =
      objectFromEntries (jsSlice data ((pn - 1) * ps) (pn * ps)) := by
    unfold readPage
    rw [hrebuild]
  have hperm : (readPage data pn ps).Perm
      (jsSlice data ((pn - 1) * ps) (pn * ps)) := by
    rw [hmain]
    exact objectFromEntries_perm _
  have hpos : 1 ≤ pn → 0 ≤ ps →
      jsSlice data ((pn - 1) * ps) (pn * ps) =
      (data.take (pn * ps).toNat).drop ((pn - 1) * ps).toNat :=
    fun hpn hps => jsSlice_of_nonneg data _ _
      (mul_nonneg (by omega) hps) (mul_nonneg (by omega) hps)
  refine ⟨hmain, hperm, ?_, ?_, ?_, ?_⟩
  · intro hpn hps
    rw [← hpos hpn hps]
    exact hperm
  · intro hpn hps hkeys
    rw [hmain, hpos hpn hps]
    exact objectFromEntries_eq_self _ (fun p hp => (hkeys p hp).2)
  · intro hpn hps hlen
    rw [hmain, hpos hpn hps]
    have hnil : (data.take (pn * ps).toNat).drop
        ((pn - 1) * ps).toNat = [] := by
      apply List.drop_eq_nil_of_le
      have h1 : (data.take (pn * ps).toNat).length ≤ data.length := by
        simp
      omega
    rw [hnil]
    exact objectFromEntries_nil
  · intro h0
    subst h0
    unfold readPage jsSlice
    simp [jsSliceIdx, objectFromEntries_nil]

/-- Closed instance of C7 (amended): the spec's pagination example on
the Dataset inserted in order a, b, c — no key is integer-like, so
Dataset order is preserved. -/
theorem C7_readPage_contract_witness :
    readPage page3Data 1 2 = [(keyA, valOne), (keyB, valTwo)] ∧
    readPage page3Data 2 2 = [(keyC, valThree)] ∧
    readPage page3Data 3 2 = [] ∧
    readPage page3Data 0 2 = [] := by
  have h1 := (C7_readPage_contract page3Data 1 2 (by decide)).2.2.2.1
    (by decide) (by decide) (by decide)
  have h2 := (C7_readPage_contract page3Data 2 2 (by decide)).2.2.2.1
    (by decide) (by decide) (by decide)
  have h3 := (C7_readPage_contract page3Data 3 2
    (by decide)).2.2.2.2.1 (by decide) (by decide) (by decide)
  have h4 := (C7_readPage_contract page3Data 0 2
    (by decide)).2.2.2.2.2 rfl
  exact ⟨h1.trans (by decide), h2.trans (by decide), h3, h4⟩

/-- Counterexample to C7 as stated: page numbers below 1 do not all
yield an empty mapping — `readPage(-1, 2)` on the three-entry Dataset
slices with negative indices, which JS interprets from the end of the
key array, returning the first entry. And Dataset order is not always
preserved: on the Dataset inserted in order "b", "1", the returned
object enumerates the integer-like key "1" first, so page 1 is in the
order "1", "b". -/
theorem C7_counterexample :
    readPage page3Data (-1) 2 = [(keyA, valOne)] ∧
    readPage page3Data (-1) 2 ≠ [] ∧
    readPage numKeyData 1 2 =
      [(JsValue.vStr "1", valTwo), (keyB, valOne)] ∧
    readPage numKeyData 1 2 ≠ numKeyData := by
  refine ⟨by decide, by decide, by decide, by decide⟩

/-- C4 (amended): on a malformed backing file (any input the Codec
rejects), the queue-based variant's `_readFromFile` returns an empty
Dataset, while the lockfile-based variant's `_readFromFile` propagates
the parse error to its caller — only one of the two read paths degrades
to empty. -/
theorem C4_decode_failure_paths (decode : String → Except String JsMap)
    (raw : String) (e : String) (h : decode raw = .error e) :
    readFromFileQueue decode raw = [] ∧
    readFromFileLockfile decode raw = .error e := by
  unfold readFromFileQueue readFromFileLockfile
  rw [h]
  exact ⟨rfl, rfl⟩

/-- Closed instance of C4 (amended): a concrete malformed file body
under the concrete flat-JSON Codec. -/
theorem C4_decode_failure_paths_witness :
    readFromFileQueue decodeFlat "oops" = [] ∧
    readFromFileLockfile decodeFlat "oops" = .error "Unexpected token" :=
  C4_decode_failure_paths decodeFlat "oops" "Unexpected token" rfl

/-- Counterexample to C4 as stated: the claim demands that EVERY read
path through the Durable Store Accessor degrade a malformed file to an
empty Dataset, but the lockfile-based variant's `_readFromFile` returns
the parse error instead (its try/finally only releases the lock); the
queue-based variant is the one that degrades to empty. -/
theorem C4_counterexample :
    readFromFileLockfile decodeFlat "not json" =
      .error "Unexpected token" ∧
    readFromFileQueue decodeFlat "not json" = [] := by
  exact ⟨rfl, rfl⟩

/-- C9: when the Change Watcher's resynchronization read fails, it
raises an error notification, the previous Cached View stays in place
unchanged, and a subsequent `read` of any key answers exactly as it did
from the old cached Dataset. -/
theorem C9_watch_failure_keeps_cache (cache : JsMap) (e : String)
    (k : JsValue) :
    (watchOnChange cache (.error e)).1 = cache ∧
    (watchOnChange cache (.error e)).2 = .errorEvent e ∧
    readData (watchOnChange cache (.error e)).1 k = readData cache k :=
  ⟨rfl, rfl, rfl⟩

/-- C10: `batchWrite` performs no input validation: a create operation
with a non-string key is stored anyway, a create operation with a
non-JSON-representable value is stored anyway (the total return type —
no error case — shows nothing is ever thrown), and an operation whose
action is none of create/update/delete is silently ignored. -/
theorem C10_batchWrite_no_validation (d : JsMap) (k v : JsValue)
    (a : String) :
    (k.isString = false →
      mapGet (applyBatchOp d ⟨k, v, "create"⟩) k = some v) ∧
    (isValidJson v = false →
      mapGet (applyBatchOp d ⟨k, v, "create"⟩) k = some v) ∧
    (a ≠ "create" → a ≠ "update" → a ≠ "delete" →
      applyBatchOp d ⟨k, v, a⟩ = d) := by
  have hcreate : applyBatchOp d ⟨k, v, "create"⟩ = mapSet d k v := by
    unfold applyBatchOp
    rw [if_pos (Or.inl rfl)]
  refine ⟨?_, ?_, ?_⟩
  · intro _
    rw [hcreate]
    exact mapGet_mapSet_self d k v
  · intro _
    rw [hcreate]
    exact mapGet_mapSet_self d k v
  · intro h1 h2 h3
    unfold applyBatchOp
    rw [if_neg (fun hor => hor.elim h1 h2), if_neg h3]

/-- Closed instance of C10: a numeric key with a function value is
stored by a batch create, and an unknown action is a no-op. -/
theorem C10_batchWrite_no_validation_witness :
    mapGet (applyBatchOp [] ⟨.vNum 5, .vFunc 0, "create"⟩) (.vNum 5) =
      some (.vFunc 0) ∧
    applyBatchOp [(keyA, valOne)] ⟨keyA, valTwo, "upsert"⟩ =
      [(keyA, valOne)] := by
  have h := C10_batchWrite_no_validation [] (.vNum 5) (.vFunc 0) "upsert"
  have h2 := C10_batchWrite_no_validation [(keyA, valOne)] keyA valTwo
    "upsert"
  exact ⟨h.1 (by decide), h2.2.2 (by decide) (by decide) (by decide)⟩

end SimpleDB
